import Mathlib

/-!
A shallow embedding of the CS371 networked Pong project
(`pong/pongServer.py`, `pong/pongClient.py`, `pong/security.py`).

Pure fragments of the Python code are translated into executable Lean
definitions: the body of the authoritative game loop in `run_server` becomes a
`tick` function on an explicit state record, the per-connection input handler
`handle_client_input` becomes a function on the session state, the per-tick
broadcast becomes a function parameterised by a send-success oracle, and the
wire-format encoder/decoder pair becomes functions on character lists.
Machine integers are modelled as `Int`/`Nat` (Python integers are unbounded,
so no wrap-around is involved).

The helper classes `Paddle` and `Ball` live in `assets/code/helperCode`,
which is not part of the given sources; their methods are modelled from the
specification text and are marked `Modelled from the spec:` below.
-/

namespace Pong

/-- Screen width in pixels (`SCREEN_WIDTH` in pongServer.py). -/
def SCREEN_WIDTH : Int := 640

/-- Screen height in pixels (`SCREEN_HEIGHT` in pongServer.py). -/
def SCREEN_HEIGHT : Int := 480

/-- Points needed to win a game (`WIN_SCORE` in pongServer.py). -/
def WIN_SCORE : Nat := 5

/-- Paddle height in pixels (`paddleHeight` in `run_server`). -/
def paddleHeight : Int := 50

/-- Paddle width in pixels (`paddleWidth` in `run_server`). -/
def paddleWidth : Int := 10

/-- Starting vertical position of both paddles
(`paddleStartPosY = (SCREEN_HEIGHT // 2) - (paddleHeight // 2)` in `run_server`). -/
def paddleStartPosY : Int := SCREEN_HEIGHT / 2 - paddleHeight / 2

/-- Modelled from the spec: the per-tick paddle speed.  The `Paddle` helper
class (`assets/code/helperCode`) is absent from the given sources; the spec
says a paddle moves "by a fixed per-tick speed" and asserts that paddles stay
inside `[wall_margin, play_height - wall_margin - paddle_height]`, which pins
the speed to a divisor of `paddleStartPosY - wall_margin = 205`; we take the
conventional value 5, matching the ball's horizontal speed visible in src. -/
def PADDLE_SPEED : Int := 5

/-- An axis-aligned integer rectangle, as `pygame.Rect(x, y, w, h)`. -/
structure Rect where
  x : Int
  y : Int
  w : Int
  h : Int
deriving Repr, DecidableEq

/-- Strict-overlap test of two rectangles, as `pygame.Rect.colliderect`
(rectangles that merely touch do not collide). -/
def Rect.colliderect (a b : Rect) : Prop :=
  a.x < b.x + b.w ∧ b.x < a.x + a.w ∧ a.y < b.y + b.h ∧ b.y < a.y + a.h

instance (a b : Rect) : Decidable (a.colliderect b) :=
  inferInstanceAs (Decidable (a.x < b.x + b.w ∧ b.x < a.x + a.w ∧ a.y < b.y + b.h ∧ b.y < a.y + a.h))

/-- Vertical centre of a rectangle, as `pygame.Rect.center[1] = y + h // 2`. -/
def Rect.centerY (r : Rect) : Int := r.y + r.h / 2

/-- Top wall rectangle (`topWall` in `run_server`). -/
def topWall : Rect := { x := -10, y := 0, w := SCREEN_WIDTH + 20, h := 10 }

/-- Bottom wall rectangle (`bottomWall` in `run_server`). -/
def bottomWall : Rect := { x := -10, y := SCREEN_HEIGHT - 10, w := SCREEN_WIDTH + 20, h := 10 }

/-- Modelled from the spec: the `Paddle` helper class
(`assets/code/helperCode`, absent from the given sources): a rectangle plus a
fixed per-tick speed. -/
structure Paddle where
  rect : Rect
  speed : Int
deriving Repr, DecidableEq

/-- Serve direction argument of `Ball.reset` (`nowGoing="left"` or `"right"`). -/
inductive Dir where
  | left
  | right
deriving Repr, DecidableEq

/-- Modelled from the spec: the `Ball` helper class
(`assets/code/helperCode`, absent from the given sources): a rectangle, a
velocity, and the construction position remembered for resets. -/
structure Ball where
  rect : Rect
  xVel : Int
  yVel : Int
  startX : Int
  startY : Int
deriving Repr, DecidableEq

/-- Modelled from the spec: `Ball.updatePos` "advance[s the] ball by its
velocity". -/
def Ball.updatePos (b : Ball) : Ball :=
  { b with rect := { b.rect with x := b.rect.x + b.xVel, y := b.rect.y + b.yVel } }

/-- Modelled from the spec: `Ball.hitWall` — "on vertical out-of-bounds,
invert vertical velocity (wall bounce)". -/
def Ball.hitWall (b : Ball) : Ball := { b with yVel := -b.yVel }

/-- Modelled from the spec: `Ball.hitPaddle` — the "impact offset from paddle
center maps to an outgoing ... vertical velocity component, horizontal
component reverses"; the spec allows any monotonic mapping and we use floor
division of the offset by 3. -/
def Ball.hitPaddle (b : Ball) (paddleCenterY : Int) : Ball :=
  { b with xVel := -b.xVel, yVel := (b.rect.centerY - paddleCenterY).fdiv 3 }

/-- Modelled from the spec: `Ball.reset` recentres the ball at its
construction position and restarts it horizontally at the fixed speed 5
toward the named side (`nowGoing` names the travel direction: the server
constructs the ball with horizontal velocity −5, i.e. going left, and the
spec's rematch reset restores this "fixed initial direction" by calling
`reset(nowGoing="left")`). -/
def Ball.reset (b : Ball) (nowGoing : Dir) : Ball :=
  { b with rect := { b.rect with x := b.startX, y := b.startY },
           xVel := if nowGoing = Dir.right then 5 else -5,
           yVel := 0 }

/-- Session configuration: the two controllers' identity labels
(`left_initials` / `right_initials` in `run_server`). -/
structure Config where
  leftInitials : String
  rightInitials : String
deriving Repr, DecidableEq

/-- The state owned by the simulation loop in `run_server`, together with the
shared per-slot cells written by the input threads (`left_move`, `right_move`,
`left_ready`, `right_ready`). -/
structure GameState where
  leftPaddle : Paddle
  rightPaddle : Paddle
  ball : Ball
  lScore : Nat
  rScore : Nat
  winnerRecorded : Bool
  leftMove : String
  rightMove : String
  leftReady : Bool
  rightReady : Bool
deriving Repr, DecidableEq

/-- Python whitespace test for the characters relevant to `str.strip` and
`str.split` (space, tab, newline, carriage return, vertical tab, form feed). -/
def pyWs (c : Char) : Bool :=
  c = ' ' || c = '\t' || c = '\n' || c = '\r' || c = '\x0B' || c = '\x0C'

/-- Python `str.strip()` on a character list: drop whitespace from both ends. -/
def pyStrip (l : List Char) : List Char :=
  ((l.dropWhile pyWs).reverse.dropWhile pyWs).reverse

/-- Python `str.strip()` on strings. -/
def pyStripS (s : String) : String := ⟨pyStrip s.data⟩

/-- Per-tick paddle update from the latest movement intent
(`run_server`, the two blocks guarded by `left_move["value"]` /
`right_move["value"]`): move down while `rect.bottom < SCREEN_HEIGHT - 10`,
move up while `rect.top > 10`. -/
def movePaddle (move : String) (p : Paddle) : Paddle :=
  if move = "down" then
    if p.rect.y + p.rect.h < SCREEN_HEIGHT - 10 then
      { p with rect := { p.rect with y := p.rect.y + p.speed } }
    else p
  else if move = "up" then
    if 10 < p.rect.y then
      { p with rect := { p.rect with y := p.rect.y - p.speed } }
    else p
  else p

/-- Both paddle updates at the top of each loop iteration in `run_server`. -/
def movePaddles (g : GameState) : GameState :=
  { g with leftPaddle := movePaddle g.leftMove g.leftPaddle,
           rightPaddle := movePaddle g.rightMove g.rightPaddle }

/-- Normal ball movement branch of the loop in `run_server` (the `else` of the
win check): integrate, score on horizontal out-of-bounds, then paddle and wall
collisions. -/
def ballPhase (g : GameState) : GameState :=
  let b0 := g.ball.updatePos
  let sc :=
    if SCREEN_WIDTH < b0.rect.x then (b0.reset Dir.left, g.lScore + 1, g.rScore)
    else if b0.rect.x < 0 then (b0.reset Dir.right, g.lScore, g.rScore + 1)
    else (b0, g.lScore, g.rScore)
  let b1 := sc.1
  let b2 :=
    if b1.rect.colliderect g.leftPaddle.rect then b1.hitPaddle g.leftPaddle.rect.centerY
    else if b1.rect.colliderect g.rightPaddle.rect then b1.hitPaddle g.rightPaddle.rect.centerY
    else b1
  let b3 :=
    if b2.rect.colliderect topWall ∨ b2.rect.colliderect bottomWall then b2.hitWall else b2
  { g with ball := b3, lScore := sc.2.1, rScore := sc.2.2 }

/-- Winner recording step of the win branch in `run_server`: if the winner has
not been recorded yet, emit the winning controller's identity label (the call
to `record_win`) and set `winner_recorded`. -/
def recordPhase (cfg : Config) (g : GameState) : GameState × Option String :=
  if g.winnerRecorded = false then
    ({ g with winnerRecorded := true },
      if WIN_SCORE ≤ g.lScore then some cfg.leftInitials
      else if WIN_SCORE ≤ g.rScore then some cfg.rightInitials
      else none)
  else (g, none)

/-- Rematch reset in `run_server`: scores to 0, paddles to the start position,
ball re-served leftward, winner flag and both ready flags cleared. -/
def resetRound (g : GameState) : GameState :=
  { g with lScore := 0, rScore := 0,
           leftPaddle := { g.leftPaddle with rect := { g.leftPaddle.rect with y := paddleStartPosY } },
           rightPaddle := { g.rightPaddle with rect := { g.rightPaddle.rect with y := paddleStartPosY } },
           ball := g.ball.reset Dir.left,
           winnerRecorded := false,
           leftReady := false, rightReady := false }

/-- Rematch wait of the win branch in `run_server`: reset only when both
players have sent "ready". -/
def rematchPhase (g : GameState) : GameState :=
  if g.leftReady = true ∧ g.rightReady = true then resetRound g else g

/-- One iteration of the authoritative game loop in `run_server` (network
sends excluded; the emitted `Option String` is the argument of the
`record_win` call performed during this iteration, if any). -/
def tick (cfg : Config) (g0 : GameState) : GameState × Option String :=
  let g := movePaddles g0
  if WIN_SCORE ≤ g.lScore ∨ WIN_SCORE ≤ g.rScore then
    let r := recordPhase cfg g
    (rematchPhase r.1, r.2)
  else
    (ballPhase g, none)

/-- The two controller slots. -/
inductive Side where
  | left
  | right
deriving Repr, DecidableEq

/-- Processing of one complete newline-delimited line in
`handle_client_input`: strip the line; `"up"`, `"down"` and `""` overwrite the
slot's movement intent, `"ready"` sets the slot's ready flag, anything else is
ignored.  The thread only receives its own slot's cells, so only that slot's
fields can change. -/
def handleLine (side : Side) (line : String) (g : GameState) : GameState :=
  let msg := pyStripS line
  match side with
  | Side.left =>
    if msg = "up" ∨ msg = "down" ∨ msg = "" then { g with leftMove := msg }
    else if msg = "ready" then { g with leftReady := true }
    else g
  | Side.right =>
    if msg = "up" ∨ msg = "down" ∨ msg = "" then { g with rightMove := msg }
    else if msg = "ready" then { g with rightReady := true }
    else g

/-- The left paddle as constructed in `run_server`
(`Paddle(pygame.Rect(10, paddleStartPosY, paddleWidth, paddleHeight))`). -/
def leftPaddle0 : Paddle :=
  { rect := { x := 10, y := paddleStartPosY, w := paddleWidth, h := paddleHeight },
    speed := PADDLE_SPEED }

/-- The right paddle as constructed in `run_server`
(`Paddle(pygame.Rect(SCREEN_WIDTH - 20, paddleStartPosY, paddleWidth, paddleHeight))`). -/
def rightPaddle0 : Paddle :=
  { rect := { x := SCREEN_WIDTH - 20, y := paddleStartPosY, w := paddleWidth, h := paddleHeight },
    speed := PADDLE_SPEED }

/-- The ball as constructed in `run_server`
(`Ball(pygame.Rect(SCREEN_WIDTH // 2, SCREEN_HEIGHT // 2, 5, 5), -5, 0)`). -/
def ball0 : Ball :=
  { rect := { x := SCREEN_WIDTH / 2, y := SCREEN_HEIGHT / 2, w := 5, h := 5 },
    xVel := -5, yVel := 0,
    startX := SCREEN_WIDTH / 2, startY := SCREEN_HEIGHT / 2 }

/-- The session state at the start of the game loop in `run_server`. -/
def initState : GameState :=
  { leftPaddle := leftPaddle0, rightPaddle := rightPaddle0, ball := ball0,
    lScore := 0, rScore := 0, winnerRecorded := false,
    leftMove := "", rightMove := "", leftReady := false, rightReady := false }

/-- States reachable by the server: the initial state, closed under loop
iterations and under processing of arbitrary controller input lines. -/
inductive Reach (cfg : Config) : GameState → Prop where
  | init : Reach cfg initState
  | step (g : GameState) : Reach cfg g → Reach cfg (tick cfg g).1
  | line (g : GameState) (side : Side) (l : String) : Reach cfg g → Reach cfg (handleLine side l g)

/-- Invariant of a paddle maintained by the game loop: the fixed per-tick
speed 5 and height 50, and a vertical position that is a multiple of 5 inside
the travel corridor `[10, 420]`. -/
def PaddleOk (p : Paddle) : Prop :=
  p.speed = 5 ∧ p.rect.h = 50 ∧ 10 ≤ p.rect.y ∧ p.rect.y ≤ 420 ∧ p.rect.y % 5 = 0

/-- Python `str.split()` with no separator, on a character list with an
accumulator for the token currently being read (in reverse): split on runs of
whitespace, discarding empty tokens. -/
def pySplitAux : List Char → List Char → List (List Char)
  | [], acc => if acc = [] then [] else [acc.reverse]
  | c :: cs, acc =>
    if pyWs c then
      if acc = [] then pySplitAux cs [] else acc.reverse :: pySplitAux cs []
    else pySplitAux cs (c :: acc)

/-- Python `str.split()` with no separator. -/
def pySplit (l : List Char) : List (List Char) := pySplitAux l []

/-- Value of a decimal digit character, `none` on anything else. -/
def digToNat (c : Char) : Option Nat :=
  if '0' ≤ c ∧ c ≤ '9' then some (c.toNat - '0'.toNat) else none

/-- One step of decimal accumulation for `parseDigits`. -/
def parseDigitsStep (acc : Option Nat) (c : Char) : Option Nat :=
  match acc, digToNat c with
  | some a, some d => some (10 * a + d)
  | _, _ => none

/-- Parse a non-empty all-digit character list as a natural number. -/
def parseDigits (l : List Char) : Option Nat :=
  match l with
  | [] => none
  | _ => l.foldl parseDigitsStep (some 0)

/-- Python `int(token)` on a whitespace-free token: an optional sign followed
by a non-empty digit string (anything else raises, modelled as `none`). -/
def pyIntParse (l : List Char) : Option Int :=
  match l with
  | [] => none
  | c :: rest =>
    if c = '-' then (parseDigits rest).map (fun n => -(Int.ofNat n))
    else if c = '+' then (parseDigits rest).map Int.ofNat
    else (parseDigits (c :: rest)).map Int.ofNat

/-- Python `str(n)` for a natural number: minimal decimal digits. -/
def natToStr (n : Nat) : List Char :=
  if n = 0 then ['0'] else ((Nat.digits 10 n).map Nat.digitChar).reverse

/-- Python `str(i)` for an integer: minus sign followed by decimal digits when
negative. -/
def intToStr (i : Int) : List Char :=
  if i < 0 then '-' :: natToStr i.natAbs else natToStr i.toNat

/-- Join tokens with single spaces, as the server's f-string does. -/
def joinSp : List (List Char) → List Char
  | [] => []
  | [t] => t
  | t :: ts => t ++ ' ' :: joinSp ts

/-- The per-tick broadcast line built in `run_server`:
`f"{leftPaddle.rect.y} {rightPaddle.rect.y} {ball.rect.x} {ball.rect.y} {lScore} {rScore}\n"`. -/
def state_line (ly ry bx b_y ls rs : Int) : List Char :=
  joinSp [intToStr ly, intToStr ry, intToStr bx, intToStr b_y, intToStr ls, intToStr rs] ++ ['\n']

/-- The broadcast line of a game state. -/
def broadcastLine (g : GameState) : List Char :=
  state_line g.leftPaddle.rect.y g.rightPaddle.rect.y g.ball.rect.x g.ball.rect.y
    (g.lScore : Int) (g.rScore : Int)

/-- The client's `recv_state` parser (pongClient.py): an empty read means the
server closed the connection; otherwise strip the line, split it on
whitespace, require exactly six fields, and convert each with `int`; any
failure yields `none`. -/
def recv_state (line : List Char) : Option (Int × Int × Int × Int × Int × Int) :=
  if line = [] then none
  else
    match pySplit (pyStrip line) with
    | [p1, p2, p3, p4, p5, p6] =>
      match pyIntParse p1, pyIntParse p2, pyIntParse p3, pyIntParse p4, pyIntParse p5, pyIntParse p6 with
      | some v1, some v2, some v3, some v4, some v5, some v6 => some (v1, v2, v3, v4, v5, v6)
      | _, _, _, _, _, _ => none
    | _ => none

/-- Result of one per-tick broadcast in `run_server`: whether the loop broke
(a controller send failed), what was sent to each controller, the spectator
list after pruning, the spectators closed this tick, and the lines delivered
to spectators. -/
structure BroadcastOut where
  terminated : Bool
  sentLeft : Option (List Char)
  sentRight : Option (List Char)
  specsAfter : List Nat
  closed : List Nat
  sentSpecs : List (Nat × List Char)
deriving Repr, DecidableEq

/-- The spectator send loop in `run_server`: try to send `data` to every
spectator in order, collecting successful deliveries and the failed
(`dead_specs`) spectators.  Send outcomes are given by the oracle `ok`. -/
def specSendLoop (data : List Char) (ok : Nat → Bool) : List Nat → List (Nat × List Char) × List Nat
  | [] => ([], [])
  | s :: rest =>
    let r := specSendLoop data ok rest
    if ok s then ((s, data) :: r.1, r.2) else (r.1, s :: r.2)

/-- Removal pass after the spectator loop: `for d in dead_specs:
spectators.remove(d)` (Python `list.remove` erases the first occurrence). -/
def removeDead (specs dead : List Nat) : List Nat :=
  dead.foldl (fun acc d => acc.erase d) specs

/-- One per-tick broadcast in `run_server`: send to the left then the right
controller (an exception breaks the loop and ends the session before the
spectator loop runs), then fan out to spectators, closing and removing the
ones whose sends fail. -/
def run_broadcast (data : List Char) (okLeft okRight : Bool) (ok : Nat → Bool)
    (specs : List Nat) : BroadcastOut :=
  if okLeft = false then
    { terminated := true, sentLeft := none, sentRight := none,
      specsAfter := specs, closed := [], sentSpecs := [] }
  else if okRight = false then
    { terminated := true, sentLeft := some data, sentRight := none,
      specsAfter := specs, closed := [], sentSpecs := [] }
  else
    let r := specSendLoop data ok specs
    { terminated := false, sentLeft := some data, sentRight := some data,
      specsAfter := removeDead specs r.2, closed := r.2, sentSpecs := r.1 }

/-- Python `str.upper()` (ASCII letters, as used for player initials). -/
def pyUpper (s : String) : String := ⟨s.data.map Char.toUpper⟩

/-- Python `dict` lookup (`board.get(key)`), on an association list whose keys
are unique. -/
def dictGet : List (String × Nat) → String → Option Nat
  | [], _ => none
  | e :: rest, k => if e.1 = k then some e.2 else dictGet rest k

/-- Python `dict` assignment (`board[key] = v`): overwrite the existing entry
or append a new one. -/
def dictSet : List (String × Nat) → String → Nat → List (String × Nat)
  | [], k, v => [(k, v)]
  | e :: rest, k, v => if e.1 = k then (k, v) :: rest else e :: dictSet rest k v

/-- `record_win` (pongServer.py): an empty (falsy) string returns at once;
otherwise strip and uppercase the initials and increment that leaderboard
entry, starting from `leaderboard.get(initials, 0)`. -/
def record_win (initials : String) (board : List (String × Nat)) : List (String × Nat) :=
  if initials = "" then board
  else
    let key := pyUpper (pyStripS initials)
    dictSet board key ((dictGet board key).getD 0 + 1)

/-- `hash_password` (security.py): return `salt || hash` where the hash is
`hashlib.pbkdf2_hmac("sha256", password, salt, 200000)`.  The salt
(`os.urandom(16)`, always 16 bytes) and the stdlib PBKDF2 function are
parameters of the embedding; bytes are modelled as lists of naturals. -/
def hash_password (pbkdf2 : String → List Nat → Nat → List Nat) (salt : List Nat)
    (password : String) : List Nat :=
  salt ++ pbkdf2 password salt 200000

/-- `verify_password` (security.py): split the stored bytes into the 16-byte
salt prefix and the hash suffix, recompute PBKDF2 with 200000 iterations, and
compare with the stored hash. -/
def verify_password (pbkdf2 : String → List Nat → Nat → List Nat) (stored : List Nat)
    (password : String) : Bool :=
  decide (stored.drop 16 = pbkdf2 password (stored.take 16) 200000)

/-- A concrete session configuration used by witnesses. -/
def cfg0 : Config := { leftInitials := "AB", rightInitials := "CD" }

/-- A concrete round-over state: the left player has just reached 5 points and
nobody is ready for a rematch yet. -/
def gOver : GameState := { initState with lScore := 5 }

/-- A concrete round-over state with the winner already recorded and nobody
ready. -/
def gOverRecorded : GameState := { initState with lScore := 5, winnerRecorded := true }

/-- A concrete round-over state with the winner recorded and both players
ready for a rematch. -/
def gOverReady : GameState :=
  { initState with lScore := 5, winnerRecorded := true, leftReady := true, rightReady := true }

/-- A concrete in-play state at match point: the left player has 4 points and
the ball is one integration step away from leaving past the right edge. -/
def gMatchPoint : GameState :=
  { initState with
    lScore := 4
    ball := { ball0 with rect := { ball0.rect with x := 638 }, xVel := 5 } }

/-- A concrete in-play state in which the ball is one integration step away
from leaving past the right edge. -/
def gExitRight : GameState :=
  { initState with ball := { ball0 with rect := { ball0.rect with x := 638 }, xVel := 5 } }

/-! Frame lemmas for the building blocks of `tick` and `handleLine`. -/

theorem movePaddles_lScore (g : GameState) : (movePaddles g).lScore = g.lScore := rfl

theorem movePaddles_rScore (g : GameState) : (movePaddles g).rScore = g.rScore := rfl

theorem movePaddles_winnerRecorded (g : GameState) :
    (movePaddles g).winnerRecorded = g.winnerRecorded := rfl

theorem movePaddles_ball (g : GameState) : (movePaddles g).ball = g.ball := rfl

theorem movePaddles_leftReady (g : GameState) : (movePaddles g).leftReady = g.leftReady := rfl

theorem movePaddles_rightReady (g : GameState) : (movePaddles g).rightReady = g.rightReady := rfl

theorem movePaddles_leftPaddle (g : GameState) :
    (movePaddles g).leftPaddle = movePaddle g.leftMove g.leftPaddle := rfl

theorem movePaddles_rightPaddle (g : GameState) :
    (movePaddles g).rightPaddle = movePaddle g.rightMove g.rightPaddle := rfl

theorem tick_of_roundOver (cfg : Config) (g : GameState)
    (h : WIN_SCORE ≤ g.lScore ∨ WIN_SCORE ≤ g.rScore) :
    tick cfg g = (rematchPhase (recordPhase cfg (movePaddles g)).1,
                  (recordPhase cfg (movePaddles g)).2) := by
  simp only [tick, movePaddles_lScore, movePaddles_rScore]
  rw [if_pos h]

theorem tick_of_playing (cfg : Config) (g : GameState)
    (h : ¬(WIN_SCORE ≤ g.lScore ∨ WIN_SCORE ≤ g.rScore)) :
    tick cfg g = (ballPhase (movePaddles g), none) := by
  simp only [tick, movePaddles_lScore, movePaddles_rScore]
  rw [if_neg h]

theorem recordPhase_winnerRecorded (cfg : Config) (g : GameState) :
    (recordPhase cfg g).1.winnerRecorded = true := by
  unfold recordPhase
  split_ifs <;> simp_all

theorem recordPhase_frame (cfg : Config) (g : GameState) :
    (recordPhase cfg g).1.lScore = g.lScore ∧ (recordPhase cfg g).1.rScore = g.rScore
    ∧ (recordPhase cfg g).1.ball = g.ball
    ∧ (recordPhase cfg g).1.leftPaddle = g.leftPaddle
    ∧ (recordPhase cfg g).1.rightPaddle = g.rightPaddle
    ∧ (recordPhase cfg g).1.leftReady = g.leftReady
    ∧ (recordPhase cfg g).1.rightReady = g.rightReady := by
  unfold recordPhase
  split_ifs <;> exact ⟨rfl, rfl, rfl, rfl, rfl, rfl, rfl⟩

theorem ballPhase_frame (g : GameState) :
    (ballPhase g).leftPaddle = g.leftPaddle ∧ (ballPhase g).rightPaddle = g.rightPaddle
    ∧ (ballPhase g).winnerRecorded = g.winnerRecorded
    ∧ (ballPhase g).leftReady = g.leftReady ∧ (ballPhase g).rightReady = g.rightReady := by
  unfold ballPhase
  exact ⟨rfl, rfl, rfl, rfl, rfl⟩

theorem handleLine_frame (side : Side) (l : String) (g : GameState) :
    (handleLine side l g).leftPaddle = g.leftPaddle
    ∧ (handleLine side l g).rightPaddle = g.rightPaddle
    ∧ (handleLine side l g).ball = g.ball
    ∧ (handleLine side l g).lScore = g.lScore
    ∧ (handleLine side l g).rScore = g.rScore
    ∧ (handleLine side l g).winnerRecorded = g.winnerRecorded := by
  cases side <;> simp only [handleLine] <;> split_ifs <;>
    exact ⟨rfl, rfl, rfl, rfl, rfl, rfl⟩

/-! Dictionary lemmas for the leaderboard model. -/

theorem dictGet_dictSet_self (b : List (String × Nat)) (k : String) (v : Nat) :
    dictGet (dictSet b k v) k = some v := by
  induction b with
  | nil => simp [dictSet, dictGet]
  | cons e rest ih =>
    by_cases h : e.1 = k
    · simp [dictSet, h, dictGet]
    · simp [dictSet, h, dictGet, ih]

theorem dictGet_dictSet_ne (b : List (String × Nat)) (k k' : String) (v : Nat)
    (h : k' ≠ k) : dictGet (dictSet b k v) k' = dictGet b k' := by
  induction b with
  | nil => simp [dictSet, dictGet, Ne.symm h]
  | cons e rest ih =>
    by_cases he : e.1 = k
    · subst he
      simp [dictSet, dictGet, Ne.symm h]
    · simp [dictSet, he, dictGet, ih]

/-- C9: `record_win("")` leaves the leaderboard unchanged; for a non-empty
argument it increments by exactly 1 the entry keyed by the stripped,
uppercased initials (creating it at 1 when absent, since the old value is
read with `get(key, 0)`), leaves every other entry unchanged, and two calls
whose arguments strip-and-uppercase to the same key update the same entry. -/
theorem C9_record_win (s : String) (board : List (String × Nat)) :
    record_win "" board = board
    ∧ (s ≠ "" →
        dictGet (record_win s board) (pyUpper (pyStripS s))
          = some ((dictGet board (pyUpper (pyStripS s))).getD 0 + 1)
        ∧ ∀ k, k ≠ pyUpper (pyStripS s) →
            dictGet (record_win s board) k = dictGet board k)
    ∧ (∀ s2, s ≠ "" → s2 ≠ "" → pyUpper (pyStripS s) = pyUpper (pyStripS s2) →
        record_win s board = record_win s2 board) := by
  refine ⟨rfl, fun h => ?_, fun s2 h h2 heq => ?_⟩
  · unfold record_win
    rw [if_neg h]
    exact ⟨dictGet_dictSet_self .., fun k hk => dictGet_dictSet_ne _ _ _ _ hk⟩
  · unfold record_win
    rw [if_neg h, if_neg h2, heq]

/-- Witness for C9 at the concrete input `"ab "` over a two-entry leaderboard:
the call increments the `"AB"` entry and leaves `"CD"` alone. -/
theorem C9_record_win_witness :
    dictGet (record_win "ab " [("AB", 3), ("CD", 1)]) "AB" = some 4
    ∧ dictGet (record_win "ab " [("AB", 3), ("CD", 1)]) "CD" = some 1 := by
  have hkey : pyUpper (pyStripS "ab ") = "AB" := by decide
  have h := (C9_record_win "ab " [("AB", 3), ("CD", 1)]).2.1 (by decide)
  rw [hkey] at h
  refine ⟨h.1.trans (by decide), (h.2 "CD" (by decide)).trans (by decide)⟩

/-- C10: verifying a freshly hashed password succeeds, because the stored
bytes are `salt ++ hash` with a 16-byte salt, so `verify_password` recovers
exactly the salt and recomputes the same PBKDF2-HMAC-SHA256 value with 200000
iterations. -/
theorem C10_verify_roundtrip (pbkdf2 : String → List Nat → Nat → List Nat)
    (salt : List Nat) (p : String) (hsalt : salt.length = 16) :
    verify_password pbkdf2 (hash_password pbkdf2 salt p) p = true := by
  unfold verify_password hash_password
  rw [decide_eq_true_eq, ← hsalt, List.take_left, List.drop_left]

/-- Witness for C10 with a concrete 16-byte salt and a concrete stand-in for
the PBKDF2 collaborator. -/
theorem C10_verify_roundtrip_witness :
    verify_password (fun _ s _ => 7 :: s)
      (hash_password (fun _ s _ => 7 :: s) (List.replicate 16 0) "hunter2") "hunter2" = true :=
  C10_verify_roundtrip _ _ _ (by simp)

/-! Broadcast lemmas. -/

theorem specSendLoop_eq (data : List Char) (ok : Nat → Bool) (specs : List Nat) :
    specSendLoop data ok specs
      = ((specs.filter ok).map (fun s => (s, data)), specs.filter (fun s => !ok s)) := by
  induction specs with
  | nil => rfl
  | cons s rest ih =>
    cases h : ok s <;> simp [specSendLoop, ih, List.filter_cons, h]

theorem removeDead_cons_of_not_mem (x : Nat) (dead : List Nat) (hx : x ∉ dead) :
    ∀ xs : List Nat, removeDead (x :: xs) dead = x :: removeDead xs dead := by
  induction dead with
  | nil => intro xs; rfl
  | cons d ds ih =>
    intro xs
    have hdx : ¬(x == d) = true := by
      simp only [beq_iff_eq]
      exact fun he => hx (he ▸ List.mem_cons_self x ds)
    have hx' : x ∉ ds := fun hm => hx (List.mem_cons_of_mem d hm)
    show removeDead ((x :: xs).erase d) ds = x :: removeDead (xs.erase d) ds
    rw [List.erase_cons_tail hdx]
    exact ih hx' (xs.erase d)

theorem removeDead_filter (ok : Nat → Bool) (specs : List Nat) (h : specs.Nodup) :
    removeDead specs (specs.filter (fun s => !ok s)) = specs.filter ok := by
  induction specs with
  | nil => rfl
  | cons x xs ih =>
    obtain ⟨hx, hxs⟩ := List.nodup_cons.mp h
    cases hok : ok x
    · have : (x :: xs).filter (fun s => !ok s) = x :: xs.filter (fun s => !ok s) := by
        simp [List.filter_cons, hok]
      rw [this, List.filter_cons]
      show removeDead ((x :: xs).erase x) (xs.filter (fun s => !ok s)) = _
      rw [List.erase_cons_head]
      simp [hok, ih hxs]
    · have hdead : (x :: xs).filter (fun s => !ok s) = xs.filter (fun s => !ok s) := by
        simp [List.filter_cons, hok]
      have hxd : x ∉ xs.filter (fun s => !ok s) := fun hm => hx (List.mem_of_mem_filter hm)
      rw [hdead, removeDead_cons_of_not_mem x _ hxd, ih hxs, List.filter_cons]
      simp [hok]

/-- C8: with both controller sends succeeding, the per-tick broadcast keeps
exactly the spectators whose sends succeed (in order), closes exactly the
failed ones, delivers the same snapshot line to both controllers and to every
surviving spectator, and does not terminate the session; a failed controller
send instead terminates the session, leaving the spectator set untouched. -/
theorem C8_broadcast (data : List Char) (okL okR : Bool) (ok : Nat → Bool)
    (specs : List Nat) :
    (okL = true → okR = true → specs.Nodup →
      (run_broadcast data okL okR ok specs).terminated = false
      ∧ (run_broadcast data okL okR ok specs).specsAfter = specs.filter ok
      ∧ (run_broadcast data okL okR ok specs).closed = specs.filter (fun s => !ok s)
      ∧ (run_broadcast data okL okR ok specs).sentSpecs
          = (specs.filter ok).map (fun s => (s, data))
      ∧ (run_broadcast data okL okR ok specs).sentLeft = some data
      ∧ (run_broadcast data okL okR ok specs).sentRight = some data)
    ∧ ((okL = false ∨ okR = false) →
      (run_broadcast data okL okR ok specs).terminated = true
      ∧ (run_broadcast data okL okR ok specs).specsAfter = specs
      ∧ (run_broadcast data okL okR ok specs).closed = []) := by
  constructor
  · rintro rfl rfl hnd
    simp [run_broadcast, specSendLoop_eq, removeDead_filter ok specs hnd]
  · rintro (rfl | rfl)
    · simp [run_broadcast]
    · cases okL <;> simp [run_broadcast]

/-- Witness for C8: three spectators of which exactly the second fails, and a
failing left-controller send. -/
theorem C8_broadcast_witness :
    (run_broadcast ['x'] true true (fun s => !(s == 2)) [1, 2, 3]).specsAfter = [1, 3]
    ∧ (run_broadcast ['x'] true true (fun s => !(s == 2)) [1, 2, 3]).closed = [2]
    ∧ (run_broadcast ['x'] false true (fun s => !(s == 2)) [1, 2, 3]).terminated = true := by
  refine ⟨?_, ?_, ?_⟩
  · exact (((C8_broadcast ['x'] true true _ [1, 2, 3]).1 rfl rfl (by decide)).2.1).trans (by decide)
  · exact (((C8_broadcast ['x'] true true _ [1, 2, 3]).1 rfl rfl (by decide)).2.2.1).trans (by decide)
  · exact ((C8_broadcast ['x'] false true _ [1, 2, 3]).2 (Or.inl rfl)).1

/-! Characterisations of `handleLine` per side. -/

theorem handleLine_left_eq (line : String) (g : GameState) :
    handleLine Side.left line g =
      if pyStripS line = "up" ∨ pyStripS line = "down" ∨ pyStripS line = "" then
        { g with leftMove := pyStripS line }
      else if pyStripS line = "ready" then { g with leftReady := true }
      else g := rfl

theorem handleLine_right_eq (line : String) (g : GameState) :
    handleLine Side.right line g =
      if pyStripS line = "up" ∨ pyStripS line = "down" ∨ pyStripS line = "" then
        { g with rightMove := pyStripS line }
      else if pyStripS line = "ready" then { g with rightReady := true }
      else g := rfl

/-- C7 (amended): for every complete line, with `msg` the line stripped of
surrounding whitespace: if `msg` is `"up"`, `"down"` or the empty string the
slot's movement intent is overwritten with `msg`; if `msg` is `"ready"` the
slot's ready flag is set; any other line leaves both fields unchanged; and
processing a line never modifies the other slot's fields or the simulation
state. -/
theorem C7_handle_line (side : Side) (line : String) (g : GameState) :
    ((handleLine side line g).leftPaddle = g.leftPaddle
      ∧ (handleLine side line g).rightPaddle = g.rightPaddle
      ∧ (handleLine side line g).ball = g.ball
      ∧ (handleLine side line g).lScore = g.lScore
      ∧ (handleLine side line g).rScore = g.rScore
      ∧ (handleLine side line g).winnerRecorded = g.winnerRecorded)
    ∧ (side = Side.left →
        (handleLine side line g).rightMove = g.rightMove
        ∧ (handleLine side line g).rightReady = g.rightReady
        ∧ ((pyStripS line = "up" ∨ pyStripS line = "down" ∨ pyStripS line = "") →
            (handleLine side line g).leftMove = pyStripS line
            ∧ (handleLine side line g).leftReady = g.leftReady)
        ∧ (pyStripS line = "ready" →
            (handleLine side line g).leftReady = true
            ∧ (handleLine side line g).leftMove = g.leftMove)
        ∧ (¬(pyStripS line = "up" ∨ pyStripS line = "down" ∨ pyStripS line = "") →
            pyStripS line ≠ "ready" → handleLine side line g = g))
    ∧ (side = Side.right →
        (handleLine side line g).leftMove = g.leftMove
        ∧ (handleLine side line g).leftReady = g.leftReady
        ∧ ((pyStripS line = "up" ∨ pyStripS line = "down" ∨ pyStripS line = "") →
            (handleLine side line g).rightMove = pyStripS line
            ∧ (handleLine side line g).rightReady = g.rightReady)
        ∧ (pyStripS line = "ready" →
            (handleLine side line g).rightReady = true
            ∧ (handleLine side line g).rightMove = g.rightMove)
        ∧ (¬(pyStripS line = "up" ∨ pyStripS line = "down" ∨ pyStripS line = "") →
            pyStripS line ≠ "ready" → handleLine side line g = g)) := by
  refine ⟨handleLine_frame side line g, fun hs => ?_, fun hs => ?_⟩
  · subst hs
    rw [handleLine_left_eq]
    refine ⟨?_, ?_, fun h1 => ?_, fun h2 => ?_, fun h1 h2 => ?_⟩
    · split_ifs <;> rfl
    · split_ifs <;> rfl
    · rw [if_pos h1]; exact ⟨rfl, rfl⟩
    · have h1 : ¬(pyStripS line = "up" ∨ pyStripS line = "down" ∨ pyStripS line = "") := by
        rw [h2]; decide
      rw [if_neg h1, if_pos h2]; exact ⟨rfl, rfl⟩
    · rw [if_neg h1, if_neg h2]
  · subst hs
    rw [handleLine_right_eq]
    refine ⟨?_, ?_, fun h1 => ?_, fun h2 => ?_, fun h1 h2 => ?_⟩
    · split_ifs <;> rfl
    · split_ifs <;> rfl
    · rw [if_pos h1]; exact ⟨rfl, rfl⟩
    · have h1 : ¬(pyStripS line = "up" ∨ pyStripS line = "down" ∨ pyStripS line = "") := by
        rw [h2]; decide
      rw [if_neg h1, if_pos h2]; exact ⟨rfl, rfl⟩
    · rw [if_neg h1, if_neg h2]

/-- Witness for C7 at the concrete lines `" up\n"` (overwrites the left
intent with the stripped value) and `"ready"` (sets the right ready flag). -/
theorem C7_handle_line_witness :
    (handleLine Side.left " up\n" initState).leftMove = "up"
    ∧ (handleLine Side.right "ready" initState).rightReady = true := by
  constructor
  · have h := ((C7_handle_line Side.left " up\n" initState).2.1 rfl).2.2.1 (by decide)
    exact h.1.trans (by decide)
  · have h := ((C7_handle_line Side.right "ready" initState).2.2 rfl).2.2.2.1 (by decide)
    exact h.1

/-- C7 counterexample: the received line `"up "` decodes to none of `"up"`,
`"down"`, `""`, `"ready"`, so by the claim it should leave both fields
unchanged; the code strips the line before matching, so it overwrites the
movement intent. -/
theorem C7_counterexample :
    ("up " ≠ "up" ∧ "up " ≠ "down" ∧ "up " ≠ "" ∧ "up " ≠ "ready")
    ∧ handleLine Side.left "up " initState ≠ initState
    ∧ (handleLine Side.left "up " initState).leftMove = "up" := by decide

/-- C1 (amended): at each loop iteration, `record_win` is invoked exactly when
the phase is round-over and the winner is not yet recorded, with the left
player's identity if the left score reached the threshold and the right
player's otherwise; afterwards the recorded flag is set (unless the same tick
performed a rematch reset), further round-over ticks emit nothing while the
flag is set, and input-line processing never touches the flag or the scores —
so `record_win` fires exactly once per round, at the first iteration whose
win check sees the threshold reached (the iteration after the score is
scored), and not again until a rematch reset starts a new round. -/
theorem C1_record_win_once (cfg : Config) (g : GameState) (side : Side) (l : String) :
    (g.winnerRecorded = false → WIN_SCORE ≤ g.lScore →
        (tick cfg g).2 = some cfg.leftInitials)
    ∧ (g.winnerRecorded = false → ¬WIN_SCORE ≤ g.lScore → WIN_SCORE ≤ g.rScore →
        (tick cfg g).2 = some cfg.rightInitials)
    ∧ (g.winnerRecorded = true → (tick cfg g).2 = none)
    ∧ (¬WIN_SCORE ≤ g.lScore → ¬WIN_SCORE ≤ g.rScore → (tick cfg g).2 = none)
    ∧ ((WIN_SCORE ≤ g.lScore ∨ WIN_SCORE ≤ g.rScore) →
        ¬(g.leftReady = true ∧ g.rightReady = true) →
        (tick cfg g).1.winnerRecorded = true)
    ∧ ((handleLine side l g).winnerRecorded = g.winnerRecorded
        ∧ (handleLine side l g).lScore = g.lScore
        ∧ (handleLine side l g).rScore = g.rScore) := by
  refine ⟨fun hw hl => ?_, fun hw hl hr => ?_, fun hw => ?_, fun hl hr => ?_,
    fun hro hnr => ?_, ?_⟩
  · simp [tick_of_roundOver cfg g (Or.inl hl), recordPhase,
      movePaddles_winnerRecorded, movePaddles_lScore, hw, hl]
  · simp [tick_of_roundOver cfg g (Or.inr hr), recordPhase,
      movePaddles_winnerRecorded, movePaddles_lScore, movePaddles_rScore, hw, hl, hr]
  · by_cases hro : WIN_SCORE ≤ g.lScore ∨ WIN_SCORE ≤ g.rScore
    · simp [tick_of_roundOver cfg g hro, recordPhase, movePaddles_winnerRecorded, hw]
    · simp [tick_of_playing cfg g hro]
  · simp [tick_of_playing cfg g (by tauto)]
  · rw [tick_of_roundOver cfg g hro]
    have hcond : ¬((recordPhase cfg (movePaddles g)).1.leftReady = true
        ∧ (recordPhase cfg (movePaddles g)).1.rightReady = true) := by
      rw [(recordPhase_frame cfg (movePaddles g)).2.2.2.2.2.1,
        (recordPhase_frame cfg (movePaddles g)).2.2.2.2.2.2,
        movePaddles_leftReady, movePaddles_rightReady]
      exact hnr
    show (rematchPhase (recordPhase cfg (movePaddles g)).1).winnerRecorded = true
    unfold rematchPhase
    rw [if_neg hcond]
    exact recordPhase_winnerRecorded cfg (movePaddles g)
  · exact ⟨(handleLine_frame side l g).2.2.2.2.2, (handleLine_frame side l g).2.2.2.1,
      (handleLine_frame side l g).2.2.2.2.1⟩

/-- Witness for C1: at `gOver` (left score 5, winner not yet recorded) the
tick emits the left identity label; at `gOverRecorded` it emits nothing. -/
theorem C1_record_win_once_witness :
    (tick cfg0 gOver).2 = some "AB" ∧ (tick cfg0 gOverRecorded).2 = none := by
  constructor
  · exact (C1_record_win_once cfg0 gOver Side.left "").1 rfl (by decide)
  · exact (C1_record_win_once cfg0 gOverRecorded Side.left "").2.2.1 rfl

/-- C1 counterexample: at `gMatchPoint` the left score first reaches the
threshold 5 during the tick, but `record_win` is not invoked on that same tick
(the win check at the top of the loop body precedes the scoring); it fires
only on the following iteration. -/
theorem C1_counterexample :
    gMatchPoint.lScore = 4
    ∧ (tick cfg0 gMatchPoint).1.lScore = 5
    ∧ (tick cfg0 gMatchPoint).2 = none
    ∧ (tick cfg0 ((tick cfg0 gMatchPoint).1)).2 = some "AB" := by decide

/-! Scoring lemmas for the `Playing` branch. -/

theorem movePaddle_x (m : String) (p : Paddle) : (movePaddle m p).rect.x = p.rect.x := by
  unfold movePaddle
  split_ifs <;> rfl

theorem movePaddle_w (m : String) (p : Paddle) : (movePaddle m p).rect.w = p.rect.w := by
  unfold movePaddle
  split_ifs <;> rfl

theorem movePaddle_h (m : String) (p : Paddle) : (movePaddle m p).rect.h = p.rect.h := by
  unfold movePaddle
  split_ifs <;> rfl

theorem movePaddle_speed (m : String) (p : Paddle) : (movePaddle m p).speed = p.speed := by
  unfold movePaddle
  split_ifs <;> rfl

theorem ballPhase_exit_right (g : GameState)
    (hx : SCREEN_WIDTH < g.ball.rect.x + g.ball.xVel)
    (hsx : g.ball.startX = 320) (hsy : g.ball.startY = 240)
    (hbw : g.ball.rect.w = 5) (hbh : g.ball.rect.h = 5)
    (hlx : g.leftPaddle.rect.x = 10) (hlw : g.leftPaddle.rect.w = 10)
    (hrx : g.rightPaddle.rect.x = 620) :
    (ballPhase g).lScore = g.lScore + 1 ∧ (ballPhase g).rScore = g.rScore
    ∧ (ballPhase g).ball.rect.x = 320 ∧ (ballPhase g).ball.rect.y = 240
    ∧ (ballPhase g).ball.xVel = -5 ∧ (ballPhase g).ball.yVel = 0 := by
  have h1 : SCREEN_WIDTH < (g.ball.updatePos).rect.x := by
    simpa [Ball.updatePos] using hx
  have hb1x : ((g.ball.updatePos).reset Dir.left).rect.x = 320 := by
    simp [Ball.reset, Ball.updatePos, hsx]
  have hb1y : ((g.ball.updatePos).reset Dir.left).rect.y = 240 := by
    simp [Ball.reset, Ball.updatePos, hsy]
  have hb1w : ((g.ball.updatePos).reset Dir.left).rect.w = 5 := by
    simp [Ball.reset, Ball.updatePos, hbw]
  have hb1h : ((g.ball.updatePos).reset Dir.left).rect.h = 5 := by
    simp [Ball.reset, Ball.updatePos, hbh]
  have hnc1 : ¬((g.ball.updatePos).reset Dir.left).rect.colliderect g.leftPaddle.rect := by
    rintro ⟨c, -, -, -⟩
    rw [hb1x, hlx, hlw] at c
    omega
  have hnc2 : ¬((g.ball.updatePos).reset Dir.left).rect.colliderect g.rightPaddle.rect := by
    rintro ⟨-, c, -, -⟩
    rw [hb1x, hb1w, hrx] at c
    omega
  have hnc3 : ¬(((g.ball.updatePos).reset Dir.left).rect.colliderect topWall
      ∨ ((g.ball.updatePos).reset Dir.left).rect.colliderect bottomWall) := by
    rintro (⟨-, -, c, -⟩ | ⟨-, -, -, c⟩)
    · rw [hb1y] at c
      simp only [topWall] at c
      omega
    · rw [hb1y, hb1h] at c
      simp only [bottomWall, SCREEN_HEIGHT] at c
      omega
  simp only [ballPhase]
  rw [if_pos h1, if_neg hnc1, if_neg hnc2, if_neg hnc3]
  exact ⟨rfl, rfl, hb1x, hb1y, by simp [Ball.reset], by simp [Ball.reset]⟩

theorem ballPhase_exit_left (g : GameState)
    (hx : g.ball.rect.x + g.ball.xVel < 0)
    (hsx : g.ball.startX = 320) (hsy : g.ball.startY = 240)
    (hbw : g.ball.rect.w = 5) (hbh : g.ball.rect.h = 5)
    (hlx : g.leftPaddle.rect.x = 10) (hlw : g.leftPaddle.rect.w = 10)
    (hrx : g.rightPaddle.rect.x = 620) :
    (ballPhase g).rScore = g.rScore + 1 ∧ (ballPhase g).lScore = g.lScore
    ∧ (ballPhase g).ball.rect.x = 320 ∧ (ballPhase g).ball.rect.y = 240
    ∧ (ballPhase g).ball.xVel = 5 ∧ (ballPhase g).ball.yVel = 0 := by
  have h0 : ¬SCREEN_WIDTH < (g.ball.updatePos).rect.x := by
    simp only [Ball.updatePos, SCREEN_WIDTH]
    omega
  have h1 : (g.ball.updatePos).rect.x < 0 := by
    simpa [Ball.updatePos] using hx
  have hb1x : ((g.ball.updatePos).reset Dir.right).rect.x = 320 := by
    simp [Ball.reset, Ball.updatePos, hsx]
  have hb1y : ((g.ball.updatePos).reset Dir.right).rect.y = 240 := by
    simp [Ball.reset, Ball.updatePos, hsy]
  have hb1w : ((g.ball.updatePos).reset Dir.right).rect.w = 5 := by
    simp [Ball.reset, Ball.updatePos, hbw]
  have hb1h : ((g.ball.updatePos).reset Dir.right).rect.h = 5 := by
    simp [Ball.reset, Ball.updatePos, hbh]
  have hnc1 : ¬((g.ball.updatePos).reset Dir.right).rect.colliderect g.leftPaddle.rect := by
    rintro ⟨c, -, -, -⟩
    rw [hb1x, hlx, hlw] at c
    omega
  have hnc2 : ¬((g.ball.updatePos).reset Dir.right).rect.colliderect g.rightPaddle.rect := by
    rintro ⟨-, c, -, -⟩
    rw [hb1x, hb1w, hrx] at c
    omega
  have hnc3 : ¬(((g.ball.updatePos).reset Dir.right).rect.colliderect topWall
      ∨ ((g.ball.updatePos).reset Dir.right).rect.colliderect bottomWall) := by
    rintro (⟨-, -, c, -⟩ | ⟨-, -, -, c⟩)
    · rw [hb1y] at c
      simp only [topWall] at c
      omega
    · rw [hb1y, hb1h] at c
      simp only [bottomWall, SCREEN_HEIGHT] at c
      omega
  simp only [ballPhase]
  rw [if_neg h0, if_pos h1, if_neg hnc1, if_neg hnc2, if_neg hnc3]
  exact ⟨rfl, rfl, hb1x, hb1y, by simp [Ball.reset], by simp [Ball.reset]⟩

/-- C3 (amended): on a Playing tick whose integration step carries the ball
past the right edge, the left score is incremented by exactly 1 (the right
score unchanged) and the ball is reset to the centre travelling toward the
LEFT, i.e. toward the side that just won the point; symmetrically, past the
left edge the right score is incremented and the ball is reset travelling
toward the RIGHT.  (The structural hypotheses record the fixed geometry of
the session: ball size and centre, paddle columns.) -/
theorem C3_score_reset (cfg : Config) (g : GameState)
    (hplay : ¬(WIN_SCORE ≤ g.lScore ∨ WIN_SCORE ≤ g.rScore))
    (hsx : g.ball.startX = 320) (hsy : g.ball.startY = 240)
    (hbw : g.ball.rect.w = 5) (hbh : g.ball.rect.h = 5)
    (hlx : g.leftPaddle.rect.x = 10) (hlw : g.leftPaddle.rect.w = 10)
    (hrx : g.rightPaddle.rect.x = 620) :
    (SCREEN_WIDTH < g.ball.rect.x + g.ball.xVel →
      (tick cfg g).1.lScore = g.lScore + 1 ∧ (tick cfg g).1.rScore = g.rScore
      ∧ (tick cfg g).1.ball.rect.x = 320 ∧ (tick cfg g).1.ball.rect.y = 240
      ∧ (tick cfg g).1.ball.xVel = -5 ∧ (tick cfg g).1.ball.yVel = 0)
    ∧ (g.ball.rect.x + g.ball.xVel < 0 →
      (tick cfg g).1.rScore = g.rScore + 1 ∧ (tick cfg g).1.lScore = g.lScore
      ∧ (tick cfg g).1.ball.rect.x = 320 ∧ (tick cfg g).1.ball.rect.y = 240
      ∧ (tick cfg g).1.ball.xVel = 5 ∧ (tick cfg g).1.ball.yVel = 0) := by
  rw [tick_of_playing cfg g hplay]
  constructor
  · intro hx
    exact ballPhase_exit_right (movePaddles g) hx hsx hsy hbw hbh
      (by rw [movePaddles_leftPaddle, movePaddle_x]; exact hlx)
      (by rw [movePaddles_leftPaddle, movePaddle_w]; exact hlw)
      (by rw [movePaddles_rightPaddle, movePaddle_x]; exact hrx)
  · intro hx
    exact ballPhase_exit_left (movePaddles g) hx hsx hsy hbw hbh
      (by rw [movePaddles_leftPaddle, movePaddle_x]; exact hlx)
      (by rw [movePaddles_leftPaddle, movePaddle_w]; exact hlw)
      (by rw [movePaddles_rightPaddle, movePaddle_x]; exact hrx)

/-- Witness for C3 at `gExitRight`: the ball leaves past the right edge, the
left score is incremented, and the ball restarts from the centre going left. -/
theorem C3_score_reset_witness :
    (tick cfg0 gExitRight).1.lScore = gExitRight.lScore + 1
    ∧ (tick cfg0 gExitRight).1.ball.rect.x = 320
    ∧ (tick cfg0 gExitRight).1.ball.xVel = -5 := by
  have h := (C3_score_reset cfg0 gExitRight (by decide) (by decide) (by decide) (by decide)
    (by decide) (by decide) (by decide) (by decide)).1 (by decide)
  exact ⟨h.1, h.2.2.1, h.2.2.2.2.1⟩

/-- C3 counterexample: at `gExitRight` the ball exits past the right edge
(643 > 640); the claim says the reset ball then travels toward the side that
just lost the point, the right side (positive horizontal velocity); the code
calls `ball.reset(nowGoing="left")` and serves it toward the left, the side
that just scored. -/
theorem C3_counterexample :
    gExitRight.ball.rect.x + gExitRight.ball.xVel = 643
    ∧ (tick cfg0 gExitRight).1.lScore = 1
    ∧ (tick cfg0 gExitRight).1.ball.xVel = -5
    ∧ ¬0 < (tick cfg0 gExitRight).1.ball.xVel := by decide

/-- C4: on a round-over tick with both controllers' ready flags true, exactly
one reset occurs — scores become 0, both paddles return to the start
position, the ball returns to the centre with the fixed initial direction
(leftward at speed 5), both ready flags are cleared, and the phase returns to
Playing; on a round-over tick with at least one flag false the scores, ball
and ready flags are all unchanged and the phase stays RoundOver. -/
theorem C4_rematch_reset (cfg : Config) (g : GameState)
    (hover : WIN_SCORE ≤ g.lScore ∨ WIN_SCORE ≤ g.rScore)
    (hsx : g.ball.startX = 320) (hsy : g.ball.startY = 240) :
    (g.leftReady = true → g.rightReady = true →
      (tick cfg g).1.lScore = 0 ∧ (tick cfg g).1.rScore = 0
      ∧ (tick cfg g).1.leftPaddle.rect.y = paddleStartPosY
      ∧ (tick cfg g).1.rightPaddle.rect.y = paddleStartPosY
      ∧ (tick cfg g).1.ball.rect.x = 320 ∧ (tick cfg g).1.ball.rect.y = 240
      ∧ (tick cfg g).1.ball.xVel = -5 ∧ (tick cfg g).1.ball.yVel = 0
      ∧ (tick cfg g).1.leftReady = false ∧ (tick cfg g).1.rightReady = false
      ∧ ¬(WIN_SCORE ≤ (tick cfg g).1.lScore ∨ WIN_SCORE ≤ (tick cfg g).1.rScore))
    ∧ (¬(g.leftReady = true ∧ g.rightReady = true) →
      (tick cfg g).1.lScore = g.lScore ∧ (tick cfg g).1.rScore = g.rScore
      ∧ (tick cfg g).1.ball = g.ball
      ∧ (tick cfg g).1.leftReady = g.leftReady ∧ (tick cfg g).1.rightReady = g.rightReady
      ∧ (WIN_SCORE ≤ (tick cfg g).1.lScore ∨ WIN_SCORE ≤ (tick cfg g).1.rScore)) := by
  rw [tick_of_roundOver cfg g hover]
  have hframe := recordPhase_frame cfg (movePaddles g)
  constructor
  · intro hl hr
    have hcond : (recordPhase cfg (movePaddles g)).1.leftReady = true
        ∧ (recordPhase cfg (movePaddles g)).1.rightReady = true := by
      rw [hframe.2.2.2.2.2.1, hframe.2.2.2.2.2.2, movePaddles_leftReady, movePaddles_rightReady]
      exact ⟨hl, hr⟩
    show (rematchPhase (recordPhase cfg (movePaddles g)).1).lScore = 0 ∧ _
    unfold rematchPhase
    rw [if_pos hcond]
    have hball : (recordPhase cfg (movePaddles g)).1.ball = g.ball := by
      rw [hframe.2.2.1, movePaddles_ball]
    refine ⟨rfl, rfl, rfl, rfl, ?_, ?_, rfl, rfl, rfl, rfl, by simp [resetRound, WIN_SCORE]⟩
    · show ((recordPhase cfg (movePaddles g)).1.ball.reset Dir.left).rect.x = 320
      rw [hball]
      simp [Ball.reset, hsx]
    · show ((recordPhase cfg (movePaddles g)).1.ball.reset Dir.left).rect.y = 240
      rw [hball]
      simp [Ball.reset, hsy]
  · intro hnr
    have hcond : ¬((recordPhase cfg (movePaddles g)).1.leftReady = true
        ∧ (recordPhase cfg (movePaddles g)).1.rightReady = true) := by
      rw [hframe.2.2.2.2.2.1, hframe.2.2.2.2.2.2, movePaddles_leftReady, movePaddles_rightReady]
      exact hnr
    show (rematchPhase (recordPhase cfg (movePaddles g)).1).lScore = g.lScore ∧ _
    unfold rematchPhase
    rw [if_neg hcond]
    refine ⟨?_, ?_, ?_, ?_, ?_, ?_⟩
    · rw [hframe.1, movePaddles_lScore]
    · rw [hframe.2.1, movePaddles_rScore]
    · rw [hframe.2.2.1, movePaddles_ball]
    · rw [hframe.2.2.2.2.2.1, movePaddles_leftReady]
    · rw [hframe.2.2.2.2.2.2, movePaddles_rightReady]
    · rw [hframe.1, movePaddles_lScore, hframe.2.1, movePaddles_rScore]
      exact hover

/-- Witness for C4 at `gOverReady` (both ready: the reset fires) and
`gOverRecorded` (right not ready: everything stays frozen). -/
theorem C4_rematch_reset_witness :
    (tick cfg0 gOverReady).1.lScore = 0
    ∧ (tick cfg0 gOverReady).1.leftReady = false
    ∧ (tick cfg0 gOverReady).1.ball.xVel = -5
    ∧ (tick cfg0 gOverRecorded).1.lScore = 5 := by
  have h1 := (C4_rematch_reset cfg0 gOverReady (by decide) (by decide) (by decide)).1 rfl rfl
  have h2 := (C4_rematch_reset cfg0 gOverRecorded (by decide) (by decide) (by decide)).2
    (by decide)
  exact ⟨h1.1, h1.2.2.2.2.2.2.2.2.1, h1.2.2.2.2.2.2.1, h2.1⟩

/-- C5: while the phase is RoundOver and the rematch condition does not hold,
a tick leaves the ball's position and velocity and both scores unchanged,
while the paddles still move by the normal per-tick paddle rule; the ball is
integrated (via `ballPhase`) only on Playing ticks, which also emit no
`record_win` call. -/
theorem C5_round_over_freeze (cfg : Config) (g : GameState) :
    ((WIN_SCORE ≤ g.lScore ∨ WIN_SCORE ≤ g.rScore) →
      ¬(g.leftReady = true ∧ g.rightReady = true) →
      (tick cfg g).1.ball = g.ball
      ∧ (tick cfg g).1.lScore = g.lScore ∧ (tick cfg g).1.rScore = g.rScore
      ∧ (tick cfg g).1.leftPaddle = movePaddle g.leftMove g.leftPaddle
      ∧ (tick cfg g).1.rightPaddle = movePaddle g.rightMove g.rightPaddle)
    ∧ (¬(WIN_SCORE ≤ g.lScore ∨ WIN_SCORE ≤ g.rScore) →
      (tick cfg g).1 = ballPhase (movePaddles g) ∧ (tick cfg g).2 = none) := by
  constructor
  · intro hro hnr
    rw [tick_of_roundOver cfg g hro]
    have hframe := recordPhase_frame cfg (movePaddles g)
    have hcond : ¬((recordPhase cfg (movePaddles g)).1.leftReady = true
        ∧ (recordPhase cfg (movePaddles g)).1.rightReady = true) := by
      rw [hframe.2.2.2.2.2.1, hframe.2.2.2.2.2.2, movePaddles_leftReady, movePaddles_rightReady]
      exact hnr
    show (rematchPhase (recordPhase cfg (movePaddles g)).1).ball = g.ball ∧ _
    unfold rematchPhase
    rw [if_neg hcond]
    refine ⟨?_, ?_, ?_, ?_, ?_⟩
    · rw [hframe.2.2.1, movePaddles_ball]
    · rw [hframe.1, movePaddles_lScore]
    · rw [hframe.2.1, movePaddles_rScore]
    · rw [hframe.2.2.2.1, movePaddles_leftPaddle]
    · rw [hframe.2.2.2.2.1, movePaddles_rightPaddle]
  · intro hplay
    rw [tick_of_playing cfg g hplay]
    exact ⟨rfl, rfl⟩

/-- Witness for C5 at `gOver` (frozen round-over tick) and `initState`
(a Playing tick integrates the ball). -/
theorem C5_round_over_freeze_witness :
    (tick cfg0 gOver).1.ball = gOver.ball
    ∧ (tick cfg0 gOver).1.lScore = 5
    ∧ (tick cfg0 initState).1 = ballPhase (movePaddles initState) := by
  have h1 := (C5_round_over_freeze cfg0 gOver).1 (by decide) (by decide)
  have h2 := (C5_round_over_freeze cfg0 initState).2 (by decide)
  exact ⟨h1.1, h1.2.1, h2.1⟩

/-! The paddle-corridor invariant. -/

theorem movePaddle_ok (m : String) (p : Paddle) (h : PaddleOk p) : PaddleOk (movePaddle m p) := by
  obtain ⟨hs, hh, h1, h2, h3⟩ := h
  unfold movePaddle PaddleOk
  split_ifs <;> refine ⟨?_, ?_, ?_, ?_, ?_⟩ <;> simp_all [SCREEN_HEIGHT] <;> omega

theorem paddleOk_resetY (p : Paddle) (h : PaddleOk p) :
    PaddleOk { p with rect := { p.rect with y := paddleStartPosY } } :=
  ⟨h.1, h.2.1, show (10 : Int) ≤ paddleStartPosY by decide,
    show paddleStartPosY ≤ (420 : Int) by decide,
    show paddleStartPosY % 5 = 0 by decide⟩

theorem tick_leftPaddle_cases (cfg : Config) (g : GameState) :
    (tick cfg g).1.leftPaddle = movePaddle g.leftMove g.leftPaddle
    ∨ (tick cfg g).1.leftPaddle =
        { movePaddle g.leftMove g.leftPaddle with
          rect := { (movePaddle g.leftMove g.leftPaddle).rect with y := paddleStartPosY } } := by
  by_cases hro : WIN_SCORE ≤ g.lScore ∨ WIN_SCORE ≤ g.rScore
  · rw [tick_of_roundOver cfg g hro]
    have hframe := recordPhase_frame cfg (movePaddles g)
    show (rematchPhase (recordPhase cfg (movePaddles g)).1).leftPaddle = _ ∨ _
    unfold rematchPhase
    split_ifs
    · right
      show (resetRound (recordPhase cfg (movePaddles g)).1).leftPaddle = _
      unfold resetRound
      rw [show (recordPhase cfg (movePaddles g)).1.leftPaddle = movePaddle g.leftMove g.leftPaddle
        from hframe.2.2.2.1.trans (movePaddles_leftPaddle g)]
    · left
      exact hframe.2.2.2.1.trans (movePaddles_leftPaddle g)
  · rw [tick_of_playing cfg g hro]
    left
    exact (ballPhase_frame (movePaddles g)).1.trans (movePaddles_leftPaddle g)

theorem tick_rightPaddle_cases (cfg : Config) (g : GameState) :
    (tick cfg g).1.rightPaddle = movePaddle g.rightMove g.rightPaddle
    ∨ (tick cfg g).1.rightPaddle =
        { movePaddle g.rightMove g.rightPaddle with
          rect := { (movePaddle g.rightMove g.rightPaddle).rect with y := paddleStartPosY } } := by
  by_cases hro : WIN_SCORE ≤ g.lScore ∨ WIN_SCORE ≤ g.rScore
  · rw [tick_of_roundOver cfg g hro]
    have hframe := recordPhase_frame cfg (movePaddles g)
    show (rematchPhase (recordPhase cfg (movePaddles g)).1).rightPaddle = _ ∨ _
    unfold rematchPhase
    split_ifs
    · right
      show (resetRound (recordPhase cfg (movePaddles g)).1).rightPaddle = _
      unfold resetRound
      rw [show (recordPhase cfg (movePaddles g)).1.rightPaddle = movePaddle g.rightMove g.rightPaddle
        from hframe.2.2.2.2.1.trans (movePaddles_rightPaddle g)]
    · left
      exact hframe.2.2.2.2.1.trans (movePaddles_rightPaddle g)
  · rw [tick_of_playing cfg g hro]
    left
    exact (ballPhase_frame (movePaddles g)).2.1.trans (movePaddles_rightPaddle g)

theorem reach_paddles_ok (cfg : Config) (g : GameState) (h : Reach cfg g) :
    PaddleOk g.leftPaddle ∧ PaddleOk g.rightPaddle := by
  induction h with
  | init =>
    constructor <;> exact ⟨rfl, rfl, by decide, by decide, by decide⟩
  | step g hg ih =>
    obtain ⟨ihl, ihr⟩ := ih
    constructor
    · rcases tick_leftPaddle_cases cfg g with hc | hc <;> rw [hc]
      · exact movePaddle_ok g.leftMove g.leftPaddle ihl
      · exact paddleOk_resetY _ (movePaddle_ok g.leftMove g.leftPaddle ihl)
    · rcases tick_rightPaddle_cases cfg g with hc | hc <;> rw [hc]
      · exact movePaddle_ok g.rightMove g.rightPaddle ihr
      · exact paddleOk_resetY _ (movePaddle_ok g.rightMove g.rightPaddle ihr)
  | line g side l hg ih =>
    rw [(handleLine_frame side l g).1, (handleLine_frame side l g).2.1] at *
    exact ih

/-- C2: in every reachable session state each paddle's top edge is at or
below the wall margin 10 and its bottom edge at or above
`SCREEN_HEIGHT - 10 = 470` (the paddle height being the fixed 50); moreover a
paddle at the minimum allowed y ignores a further "up" intent, and a paddle
whose bottom edge has reached the lower bound ignores a further "down"
intent. -/
theorem C2_paddle_bounds (cfg : Config) (g : GameState) (h : Reach cfg g) :
    (10 ≤ g.leftPaddle.rect.y
      ∧ g.leftPaddle.rect.y + g.leftPaddle.rect.h ≤ SCREEN_HEIGHT - 10
      ∧ g.leftPaddle.rect.h = paddleHeight
      ∧ 10 ≤ g.rightPaddle.rect.y
      ∧ g.rightPaddle.rect.y + g.rightPaddle.rect.h ≤ SCREEN_HEIGHT - 10
      ∧ g.rightPaddle.rect.h = paddleHeight)
    ∧ (∀ p : Paddle, p.rect.y = 10 → movePaddle "up" p = p)
    ∧ (∀ p : Paddle, SCREEN_HEIGHT - 10 ≤ p.rect.y + p.rect.h → movePaddle "down" p = p) := by
  obtain ⟨hl, hr⟩ := reach_paddles_ok cfg g h
  refine ⟨⟨hl.2.2.1, ?_, hl.2.1, hr.2.2.1, ?_, hr.2.1⟩, ?_, ?_⟩
  · have hy := hl.2.2.2.1
    rw [hl.2.1]
    simp only [SCREEN_HEIGHT]
    omega
  · have hy := hr.2.2.2.1
    rw [hr.2.1]
    simp only [SCREEN_HEIGHT]
    omega
  · intro p hp
    simp [movePaddle, hp]
  · intro p hp
    unfold movePaddle
    rw [if_pos rfl, if_neg (not_lt.mpr hp)]

/-- Witness for C2 at the initial state and at paddles parked on each bound. -/
theorem C2_paddle_bounds_witness :
    10 ≤ initState.leftPaddle.rect.y
    ∧ movePaddle "up" { rect := { x := 10, y := 10, w := 10, h := 50 }, speed := 5 }
        = { rect := { x := 10, y := 10, w := 10, h := 50 }, speed := 5 }
    ∧ movePaddle "down" { rect := { x := 10, y := 420, w := 10, h := 50 }, speed := 5 }
        = { rect := { x := 10, y := 420, w := 10, h := 50 }, speed := 5 } := by
  have h := C2_paddle_bounds cfg0 initState Reach.init
  exact ⟨h.1.1, h.2.1 _ rfl, h.2.2 _ (by decide)⟩

/-! Wire-format lemmas: splitting. -/

theorem pySplitAux_nil (acc : List Char) :
    pySplitAux [] acc = if acc = [] then [] else [acc.reverse] := rfl

theorem pySplitAux_cons (c : Char) (cs acc : List Char) :
    pySplitAux (c :: cs) acc =
      if pyWs c then
        if acc = [] then pySplitAux cs [] else acc.reverse :: pySplitAux cs []
      else pySplitAux cs (c :: acc) := rfl

theorem pySplitAux_token (t : List Char) (ht : ∀ c ∈ t, pyWs c = false) :
    ∀ (r acc : List Char), pySplitAux (t ++ r) acc = pySplitAux r (t.reverse ++ acc) := by
  induction t with
  | nil => intro r acc; simp
  | cons c t ih =>
    intro r acc
    have hc : pyWs c = false := ht c (List.mem_cons_self c t)
    rw [List.cons_append, pySplitAux_cons, hc, if_neg Bool.false_ne_true,
      ih (fun d hd => ht d (List.mem_cons_of_mem c hd)) r (c :: acc),
      List.reverse_cons, List.append_assoc, List.singleton_append]

theorem pySplitAux_all_ws (w : List Char) (hw : ∀ c ∈ w, pyWs c = true) :
    ∀ acc : List Char, pySplitAux w acc = if acc = [] then [] else [acc.reverse] := by
  induction w with
  | nil => intro acc; rfl
  | cons c w ih =>
    intro acc
    have hc := hw c (List.mem_cons_self c w)
    have hw' : ∀ d ∈ w, pyWs d = true := fun d hd => hw d (List.mem_cons_of_mem c hd)
    rw [pySplitAux_cons, hc, if_pos rfl]
    by_cases ha : acc = []
    · rw [if_pos ha, ih hw' [], if_pos rfl, if_pos ha]
    · rw [if_neg ha, ih hw' [], if_pos rfl, if_neg ha]

theorem pySplitAux_append_ws (w : List Char) (hw : ∀ c ∈ w, pyWs c = true) :
    ∀ (l acc : List Char), pySplitAux (l ++ w) acc = pySplitAux l acc := by
  intro l
  induction l with
  | nil =>
    intro acc
    rw [List.nil_append, pySplitAux_all_ws w hw acc, pySplitAux_nil]
  | cons c l ih =>
    intro acc
    rw [List.cons_append, pySplitAux_cons, pySplitAux_cons]
    simp only [ih]

theorem pySplit_dropWhile (l : List Char) : pySplit (l.dropWhile pyWs) = pySplit l := by
  induction l with
  | nil => rfl
  | cons c l ih =>
    cases hpc : pyWs c
    · rw [List.dropWhile_cons, hpc, if_neg Bool.false_ne_true]
    · rw [List.dropWhile_cons, hpc, if_pos rfl, ih]
      show pySplit l = pySplitAux (c :: l) []
      rw [pySplitAux_cons, hpc, if_pos rfl, if_pos rfl]
      rfl

theorem pySplit_strip (l : List Char) : pySplit (pyStrip l) = pySplit l := by
  unfold pyStrip
  rw [← pySplit_dropWhile l]
  set m := l.dropWhile pyWs with hm
  have hdecomp : m = (m.reverse.dropWhile pyWs).reverse ++ (m.reverse.takeWhile pyWs).reverse := by
    conv_lhs => rw [← List.reverse_reverse m]
    rw [← List.reverse_append, List.takeWhile_append_dropWhile]
  have hw : ∀ c ∈ (m.reverse.takeWhile pyWs).reverse, pyWs c = true := by
    intro c hc
    rw [List.mem_reverse] at hc
    exact List.mem_takeWhile_imp hc
  show pySplitAux ((m.reverse.dropWhile pyWs).reverse) [] = pySplitAux m []
  conv_rhs => rw [hdecomp]
  rw [pySplitAux_append_ws _ hw _ []]

theorem pySplit_joinSp : ∀ ts : List (List Char),
    (∀ t ∈ ts, t ≠ [] ∧ ∀ c ∈ t, pyWs c = false) → pySplit (joinSp ts) = ts := by
  intro ts
  induction ts with
  | nil => intro _; rfl
  | cons t ts ih =>
    intro hts
    obtain ⟨htne, htc⟩ := hts t (List.mem_cons_self t ts)
    have hrev : t.reverse ≠ [] := by simpa using htne
    cases ts with
    | nil =>
      show pySplitAux t [] = [t]
      have h := pySplitAux_token t htc [] []
      rw [List.append_nil] at h
      rw [h, List.append_nil, pySplitAux_nil, if_neg hrev, List.reverse_reverse]
    | cons t2 ts2 =>
      have hts' : ∀ u ∈ t2 :: ts2, u ≠ [] ∧ ∀ c ∈ u, pyWs c = false :=
        fun u hu => hts u (List.mem_cons_of_mem t hu)
      show pySplitAux (t ++ ' ' :: joinSp (t2 :: ts2)) [] = t :: t2 :: ts2
      rw [pySplitAux_token t htc _ [], List.append_nil, pySplitAux_cons,
        if_pos (show pyWs ' ' = true from rfl), if_neg hrev, List.reverse_reverse]
      exact congrArg (t :: ·) (ih hts')

/-! Wire-format lemmas: decimal printing and parsing. -/

theorem digToNat_digitChar (d : Nat) (hd : d < 10) : digToNat (Nat.digitChar d) = some d := by
  interval_cases d <;> decide

theorem parseFold_map (L : List Nat) (hL : ∀ d ∈ L, d < 10) :
    ∀ a : Nat, (L.map Nat.digitChar).foldl parseDigitsStep (some a)
      = some (L.foldl (fun x d => 10 * x + d) a) := by
  induction L with
  | nil => intro a; rfl
  | cons d L ih =>
    intro a
    have hd := hL d (List.mem_cons_self d L)
    rw [List.map_cons, List.foldl_cons, List.foldl_cons,
      show parseDigitsStep (some a) (Nat.digitChar d) = some (10 * a + d) by
        unfold parseDigitsStep; rw [digToNat_digitChar d hd]]
    exact ih (fun e he => hL e (List.mem_cons_of_mem d he)) (10 * a + d)

theorem foldl_reverse_ofDigits (L : List Nat) :
    ∀ a : Nat, L.reverse.foldl (fun x d => 10 * x + d) a
      = a * 10 ^ L.length + Nat.ofDigits 10 L := by
  induction L with
  | nil => intro a; simp
  | cons d L ih =>
    intro a
    rw [List.reverse_cons, List.foldl_append, ih a]
    simp only [List.foldl_cons, List.foldl_nil, Nat.ofDigits_cons, List.length_cons,
      pow_succ, Nat.cast_id]
    ring

theorem parseDigits_natToStr (n : Nat) : parseDigits (natToStr n) = some n := by
  by_cases h : n = 0
  · subst h; decide
  · unfold natToStr
    rw [if_neg h]
    have hlt : ∀ d ∈ Nat.digits 10 n, d < 10 := fun d hd => Nat.digits_lt_base (by norm_num) hd
    have hne : Nat.digits 10 n ≠ [] := Nat.digits_ne_nil_iff_ne_zero.mpr h
    have hrne : (Nat.digits 10 n).reverse ≠ [] := by simpa using hne
    obtain ⟨e, es, hees⟩ := List.exists_cons_of_ne_nil hrne
    rw [← List.map_reverse, hees]
    have hlt' : ∀ d ∈ e :: es, d < 10 := by
      intro d hd
      exact hlt d (List.mem_reverse.mp (hees ▸ hd))
    show (List.map Nat.digitChar (e :: es)).foldl parseDigitsStep (some 0) = some n
    rw [parseFold_map (e :: es) hlt' 0, ← hees, foldl_reverse_ofDigits, Nat.ofDigits_digits]
    simp

theorem natToStr_ne_nil (n : Nat) : natToStr n ≠ [] := by
  unfold natToStr
  split_ifs with h
  · simp
  · have hne : Nat.digits 10 n ≠ [] := Nat.digits_ne_nil_iff_ne_zero.mpr h
    simpa using hne

theorem natToStr_digits (n : Nat) :
    ∀ c ∈ natToStr n, c ∈ ['0', '1', '2', '3', '4', '5', '6', '7', '8', '9'] := by
  intro c hc
  unfold natToStr at hc
  split_ifs at hc with h
  · simp only [List.mem_singleton] at hc
    subst hc
    decide
  · rw [List.mem_reverse] at hc
    obtain ⟨d, hd, rfl⟩ := List.mem_map.mp hc
    have hd10 : d < 10 := Nat.digits_lt_base (by norm_num) hd
    interval_cases d <;> decide

theorem digitList_not_ws :
    ∀ c ∈ ['0', '1', '2', '3', '4', '5', '6', '7', '8', '9'], pyWs c = false := by decide

theorem digitList_not_sign :
    ∀ c ∈ ['0', '1', '2', '3', '4', '5', '6', '7', '8', '9'], c ≠ '-' ∧ c ≠ '+' := by decide

theorem intToStr_ne_nil (i : Int) : intToStr i ≠ [] := by
  unfold intToStr
  split_ifs
  · simp
  · exact natToStr_ne_nil _

theorem intToStr_not_ws (i : Int) : ∀ c ∈ intToStr i, pyWs c = false := by
  intro c hc
  unfold intToStr at hc
  split_ifs at hc
  · rcases List.mem_cons.mp hc with rfl | hc
    · decide
    · exact digitList_not_ws c (natToStr_digits _ c hc)
  · exact digitList_not_ws c (natToStr_digits _ c hc)

theorem pyIntParse_cons (c : Char) (rest : List Char) :
    pyIntParse (c :: rest) =
      if c = '-' then (parseDigits rest).map (fun n => -(Int.ofNat n))
      else if c = '+' then (parseDigits rest).map Int.ofNat
      else (parseDigits (c :: rest)).map Int.ofNat := rfl

theorem pyIntParse_intToStr (i : Int) : pyIntParse (intToStr i) = some i := by
  by_cases hneg : i < 0
  · unfold intToStr
    rw [if_pos hneg, pyIntParse_cons, if_pos rfl, parseDigits_natToStr]
    show some (-(Int.ofNat i.natAbs)) = some i
    congr 1
    rw [Int.ofNat_eq_natCast]
    omega
  · have hge : 0 ≤ i := not_lt.mp hneg
    unfold intToStr
    rw [if_neg hneg]
    obtain ⟨c, rest, hcr⟩ := List.exists_cons_of_ne_nil (natToStr_ne_nil i.toNat)
    have hcd := natToStr_digits i.toNat c (hcr ▸ List.mem_cons_self c rest)
    obtain ⟨hc1, hc2⟩ := digitList_not_sign c hcd
    rw [hcr, pyIntParse_cons, if_neg hc1, if_neg hc2, ← hcr, parseDigits_natToStr]
    show some (Int.ofNat i.toNat) = some i
    congr 1
    rw [Int.ofNat_eq_natCast]
    omega

/-- C6: encoding any snapshot of six integers as the server's broadcast line
(the six decimal integers joined by single spaces, terminated by a newline)
and decoding that line with the client's `recv_state` parser yields exactly
the original six integers. -/
theorem C6_roundtrip (ly ry bx b_y ls rs : Int) :
    recv_state (state_line ly ry bx b_y ls rs) = some (ly, ry, bx, b_y, ls, rs) := by
  have htok : ∀ t ∈ [intToStr ly, intToStr ry, intToStr bx, intToStr b_y,
      intToStr ls, intToStr rs], t ≠ [] ∧ ∀ c ∈ t, pyWs c = false := by
    intro t ht
    simp only [List.mem_cons, List.not_mem_nil, or_false] at ht
    rcases ht with rfl | rfl | rfl | rfl | rfl | rfl <;>
      exact ⟨intToStr_ne_nil _, intToStr_not_ws _⟩
  have hsplit : pySplit (pyStrip (state_line ly ry bx b_y ls rs))
      = [intToStr ly, intToStr ry, intToStr bx, intToStr b_y, intToStr ls, intToStr rs] := by
    rw [pySplit_strip]
    unfold state_line
    show pySplitAux (joinSp _ ++ ['\n']) [] = _
    rw [pySplitAux_append_ws ['\n'] (by decide) _ []]
    exact pySplit_joinSp _ htok
  have hne : state_line ly ry bx b_y ls rs ≠ [] := by
    unfold state_line
    simp
  unfold recv_state
  rw [if_neg hne, hsplit]
  simp [pyIntParse_intToStr]

end Pong
